import Mathlib

/-!
Shallow embedding of the SDF → CSV + pharmacology merge pipeline (`app.py`).

Pandas/Python values that occur in the tables of the pipeline are modelled
by `Cell`: string cells, integer cells, the Python `None` object and the
pandas `NaN` missing marker.  `pandas.Series.astype(str)` turns `None` into
the string "None" and `NaN` into the string "nan"; `pyStr` reproduces this.
Data frames are modelled as lists of association-list rows (column name ×
cell), in column order; Python `dict` assignment is `dictInsert`.
-/

set_option maxRecDepth 4096

inductive Cell where
  | str (s : String)
  | int (n : Nat)
  | pynone
  | nan
deriving DecidableEq, Repr

/-- Python `str(x)` as applied by `pandas.Series.astype(str)` to a cell. -/
def pyStr : Cell → String
  | .str s => s
  | .int n => toString n
  | .pynone => "None"
  | .nan => "nan"

/-- Pandas missing-value test (`isna`): both Python `None` and `NaN` are na. -/
def Cell.isna : Cell → Bool
  | .pynone => true
  | .nan => true
  | _ => false

abbrev Row := List (String × Cell)

abbrev Table := List Row

/-- Column labels of a data frame, read off its first row (rows are uniform). -/
def headCols (t : Table) : List String := (t.headD []).map Prod.fst

/-- Python dict assignment `r[k] = v`: update in place if the key exists,
otherwise append the new key at the end. -/
def dictInsert (r : Row) (k : String) (v : Cell) : Row :=
  if (List.lookup k r).isSome then
    r.map (fun p => if p.1 = k then (k, v) else p)
  else
    r ++ [(k, v)]

/-- One parsed SDF molecule: its named string properties (`GetPropNames` /
`GetProp`) and the result of `Chem.MolToSmiles` (`none` when it raises). -/
structure Mol where
  props : List (String × String)
  smiles : Option String
deriving DecidableEq, Repr

/-- Lines 137-145: read each uploaded file's molecule stream, drop entries the
parser rejected (`None`), and tag every molecule with its source file name. -/
def collect (sources : List (String × List (Option Mol))) : List (Mol × String) :=
  sources.flatMap (fun s => (s.2.filterMap id).map (fun m => (m, s.1)))

/-- Lexicographic comparison of character lists by code point, the order
Python string comparison uses. -/
def strLtChars : List Char → List Char → Bool
  | [], [] => false
  | [], _ :: _ => true
  | _ :: _, [] => false
  | a :: as, b :: bs =>
    if a.toNat < b.toNat then true
    else if b.toNat < a.toNat then false
    else strLtChars as bs

/-- Python `s < t` on strings (lexicographic by code point). -/
def pyStrLt (s t : String) : Bool := strLtChars s.data t.data

/-- Insert a key into a strictly sorted list of distinct strings. -/
def insertKey (k : String) : List String → List String
  | [] => [k]
  | a :: l => if k = a then a :: l else if pyStrLt k a then k :: a :: l else a :: insertKey k l

/-- Python `sorted(set(ks))` for strings. -/
def sortedKeys (ks : List String) : List String :=
  ks.foldl (fun acc k => insertKey k acc) []

/-- Line 151: `all_props = sorted({p for m in all_mols for p in m.GetPropNames()})`. -/
def allProps (mols : List (Mol × String)) : List String :=
  sortedKeys (mols.flatMap (fun m => m.1.props.map Prod.fst))

/-- Lines 155-168: the row dict built for one molecule: `ID`, `SourceFile`,
`SMILES`, then one entry per property of the global universe (`None` when the
molecule lacks the property).  A property named like one of the three fixed
keys overwrites it, exactly as the Python dict assignment does. -/
def buildRow (univ : List String) (i : Nat) (m : Mol) (src : String) : Row :=
  let base : Row :=
    dictInsert
      (dictInsert
        (dictInsert [] "ID" (.int i))
        "SourceFile" (.str src))
      "SMILES" (match m.smiles with | some s => .str s | none => .pynone)
  univ.foldl
    (fun r p =>
      dictInsert r p (match List.lookup p m.props with | some v => .str v | none => .pynone))
    base

/-- Lines 154-170: `sdf_df = pd.DataFrame(sdf_rows)`, with 1-based `ID`. -/
def buildSdfTable (mols : List (Mol × String)) : Table :=
  let univ := allProps mols
  (mols.enumFrom 1).map (fun e => buildRow univ e.1 e.2.1 e.2.2)

/-- Python `str.strip()`: remove whitespace from both ends of the string. -/
def pyStrip (s : String) : String :=
  ⟨((s.data.dropWhile Char.isWhitespace).reverse.dropWhile Char.isWhitespace).reverse⟩

/-- Python `str.lower()`: lower-case every character. -/
def pyLower (s : String) : String := ⟨s.data.map Char.toLower⟩

/-- One CAS-normalization step, `.astype(str).str.strip()` applied to a cell. -/
def casNormCell (c : Cell) : Cell := .str (pyStrip (pyStr c))

/-- Lines 174-179: add `cas_norm` to the SDF table: normalized `cas.rn` when
that column exists, a column of `None` otherwise. -/
def addCasNormSdf (t : Table) : Table :=
  if "cas.rn" ∈ headCols t then
    t.map (fun r => dictInsert r "cas_norm" (casNormCell ((List.lookup "cas.rn" r).getD .pynone)))
  else
    t.map (fun r => dictInsert r "cas_norm" .pynone)

/-- The raw pharmacology sheet as `pd.read_excel(file, header=None)` yields it:
a grid of cells, blank cells being `NaN`. -/
abbrev Grid := List (List Cell)

/-- Line 56: index of the first row whose column-0 cell equals the literal
string "Ligand CAS RN"; `none` models the raised `IndexError`. -/
def findHeaderIdx (g : Grid) : Option Nat :=
  g.findIdx? (fun row => row.head? == some (.str "Ligand CAS RN"))

/-- Lines 47-63 (`load_pharmacology_excel`): take the detected header row as
column labels and every strictly later row as a data row.  `none` when no
header row exists (the Python code raises there). -/
def load_pharmacology_excel (g : Grid) : Option Table :=
  match findHeaderIdx g with
  | none => none
  | some i =>
    let header := (g.getD i []).map pyStr
    some ((g.drop (i + 1)).map (fun row => header.zip row))

/-- Line 189 (and line 107): `pharm_df["cas_norm"] =
pharm_df["Ligand CAS RN"].astype(str).str.strip()`. -/
def addCasNormPharm (t : Table) : Table :=
  t.map (fun r => dictInsert r "cas_norm" (casNormCell ((List.lookup "Ligand CAS RN" r).getD .nan)))

/-- Pandas `Series.unique`: deduplicate keeping first occurrences in order
(each later duplicate of an earlier element is removed). -/
def pdUnique : List String → List String
  | [] => []
  | a :: l => a :: (pdUnique l).filter (fun b => b ≠ a)

/-- Lines 109-111 (`agg_unique`): drop nulls, cast to string, deduplicate,
join with " | "; `None` when no value survives. -/
def agg_unique (cells : List Cell) : Option String :=
  let vals := pdUnique ((cells.filter (fun c => !c.isna)).map pyStr)
  if vals.isEmpty then none else some (String.intercalate " | " vals)

/-- The values of one column of a table, in row order. -/
def colCells (t : Table) (c : String) : List Cell :=
  t.map (fun r => (List.lookup c r).getD .nan)

/-- The group key `groupby("cas_norm")` uses for a row; the pipeline always
stores a string cell there, whose payload `pyStr` recovers. -/
def groupKey (r : Row) : String := pyStr ((List.lookup "cas_norm" r).getD .nan)

/-- Lines 106-107: `aggregate_pharmacology_by_cas` first ensures a `cas_norm`
column exists, deriving it from `Ligand CAS RN` when missing. -/
def pharmPrep (t : Table) : Table :=
  if "cas_norm" ∈ headCols t then t else addCasNormPharm t

/-- Lines 99-119 (`aggregate_pharmacology_by_cas`): group rows by `cas_norm`
(`groupby` emits the distinct keys in sorted order), apply `agg_unique` to
every other column, and put the key back as the first column
(`reset_index`). -/
def aggregate_pharmacology_by_cas (t : Table) : Table :=
  let t' := pharmPrep t
  let keys := sortedKeys (t'.map groupKey)
  let cols := (headCols t').filter (fun c => c ≠ "cas_norm")
  keys.map (fun k =>
    let grp := t'.filter (fun r => groupKey r == k)
    ("cas_norm", Cell.str k) ::
      cols.map (fun c =>
        (c, match agg_unique (colCells grp c) with
            | some s => Cell.str s
            | none => Cell.pynone)))

/-- Pandas suffix rule for `merge(..., suffixes=("", sfx))`: a right column
whose name collides with a left column gets the suffix appended. -/
def suffixName (leftCols : List String) (sfx : String) (c : String) : String :=
  if c ∈ leftCols then c ++ sfx else c

/-- One left row of `merge(on="cas_norm", how="left")`: one output row per
matching right row, or a single `NaN`-filled row when nothing hits. -/
def joinRow (leftCols : List String) (sfx : String) (right : Table) (l : Row) : List Row :=
  let lk := (List.lookup "cas_norm" l).getD .nan
  let hits := right.filter (fun r => (List.lookup "cas_norm" r).getD .nan == lk)
  if hits.isEmpty then
    [l ++ ((right.headD []).filter (fun p => p.1 ≠ "cas_norm")).map
        (fun p => (suffixName leftCols sfx p.1, Cell.nan))]
  else
    hits.map (fun m =>
      l ++ (m.filter (fun p => p.1 ≠ "cas_norm")).map
        (fun p => (suffixName leftCols sfx p.1, p.2)))

/-- `left.merge(right, on="cas_norm", how="left", suffixes=("", sfx))`:
left-side row order and cardinality structure of the pandas left join. -/
def mergeLeftCas (sfx : String) (left right : Table) : Table :=
  left.flatMap (joinRow (headCols left) sfx right)

/-- Line 219. -/
def base_cols : List String := ["SMILES", "cas.index.name", "cas.rn", "cas_norm"]

/-- Lines 212-215: `mask = pharm_df["Parameter"].astype(str).str.lower() ==
selected_param.lower()`, then `pharm_param = pharm_df[mask]`. -/
def paramFilter (pharm_df : Table) (sel : String) : Table :=
  pharm_df.filter
    (fun r => pyLower (pyStr ((List.lookup "Parameter" r).getD .nan)) == pyLower sel)

/-- Lines 220-224: `sdf_df[base_cols]` after the loop that creates every
missing `base_cols` column filled with `None`. -/
def projBase (r : Row) : Row :=
  base_cols.map (fun c => (c, (List.lookup c r).getD Cell.pynone))

/-- Line 225: `pharm_param[["cas_norm", "Parameter", "Value"]]`. -/
def projPV (r : Row) : Row :=
  ["cas_norm", "Parameter", "Value"].map (fun c => (c, (List.lookup c r).getD Cell.nan))

/-- Line 231: `drop(columns=["cas_norm"])`. -/
def dropKeyCol (r : Row) : Row := r.filter (fun p => p.1 ≠ "cas_norm")

/-- Lines 234-237: keep only rows whose `Parameter` and `Value` are non-null. -/
def keepParamValue (r : Row) : Bool :=
  !((List.lookup "Parameter" r).getD Cell.nan).isna
    && !((List.lookup "Value" r).getD Cell.nan).isna

/-- Lines 210-237: the Parameter-focused table.  `none` when no parameter is
selected, when the sheet lacks a `Parameter` or `Value` column, or when the
case-insensitive filter leaves no row.  Otherwise: project the SDF table to
`base_cols` (creating missing columns as `None`), left-join the filtered
pharmacology rows projected to `cas_norm`/`Parameter`/`Value`, drop the
`cas_norm` helper, and keep only rows whose `Parameter` and `Value` are both
non-null. -/
def buildParamTable (sdf_df pharm_df : Table) (selected : Option String) : Option Table :=
  match selected with
  | none => none
  | some sel =>
    if "Parameter" ∈ headCols pharm_df ∧ "Value" ∈ headCols pharm_df then
      let pharm_param := paramFilter pharm_df sel
      if pharm_param.isEmpty then none
      else
        some ((((mergeLeftCas "_y" (sdf_df.map projBase) (pharm_param.map projPV)).map
          dropKeyCol).filter keepParamValue))
    else none

/-- Outcome of one Streamlit run of the main logic (lines 123-281). -/
inductive RunOutcome where
  | noMolecules
  | crashed
  | ok (full : Table) (param : Option Table)
deriving DecidableEq, Repr

/-- Lines 123-253: collect molecules (aborting when none parse), build the SDF
table with `cas_norm`, and, when a pharmacology grid is given, load it (an
absent header row raises an uncaught `IndexError` on line 56 via line 186:
`crashed`), aggregate by CAS, left-merge onto the SDF table, and build the
optional Parameter-focused table. -/
def runPipeline (sources : List (String × List (Option Mol))) (pharm : Option Grid)
    (selected : Option String) : RunOutcome :=
  let mols := collect sources
  if mols.isEmpty then .noMolecules
  else
    let sdf := addCasNormSdf (buildSdfTable mols)
    match pharm with
    | none => .ok sdf none
    | some g =>
      match load_pharmacology_excel g with
      | none => .crashed
      | some pt =>
        let pharm_df := addCasNormPharm pt
        let pharm_agg := aggregate_pharmacology_by_cas pharm_df
        let full := mergeLeftCas "_pharm" sdf pharm_agg
        .ok full (buildParamTable sdf pharm_df selected)

/-- Python dict key insertion: a fresh key goes to the end, an existing key
keeps its position. -/
def keysInsert (ks : List String) (k : String) : List String :=
  if k ∈ ks then ks else ks ++ [k]

/-- The column labels every row dict of the SDF table ends up with: the three
fixed keys, then the new names of the property universe in order. -/
def sdfCols (mols : List (Mol × String)) : List String :=
  (allProps mols).foldl keysInsert ["ID", "SourceFile", "SMILES"]

/-- Modelled from the spec: the group emission order §4.5 claims for the
aggregated table, namely first-occurrence order of each JoinKey in the input
rows.  Used only to compare against what the code emits. -/
def specFirstOccurrenceKeys (t : Table) : List String :=
  pdUnique (t.map groupKey)

/-! ### Concrete inputs used by counterexamples and witnesses -/

/-- A molecule carrying a `cas.rn` property. -/
def mol0 : Mol := ⟨[("cas.rn", "50-00-0")], some "C=O"⟩

/-- A molecule with no properties at all: its identifier is missing. -/
def molBlank : Mol := ⟨[], some "CCO"⟩

def srcA : List (String × List (Option Mol)) := [("a.sdf", [some mol0])]

def src0 : List (String × List (Option Mol)) := [("a.sdf", [some mol0, some molBlank])]

/-- A pharmacology sheet whose header row sits below a junk row; the CAS
`50-00-0` has IC50 values 5, 5, 7 and one row has a blank identifier. -/
def gridOk : Grid :=
  [[Cell.str "Title", Cell.nan, Cell.nan],
   [Cell.str "Ligand CAS RN", Cell.str "Parameter", Cell.str "Value"],
   [Cell.str "50-00-0", Cell.str "IC50", Cell.str "5"],
   [Cell.str "50-00-0", Cell.str "IC50", Cell.str "5"],
   [Cell.str "50-00-0", Cell.str "IC50", Cell.str "7"],
   [Cell.nan, Cell.str "IC50", Cell.str "9"]]

/-- A sheet with no cell of the first column equal to "Ligand CAS RN". -/
def gridNoHeader : Grid := [[Cell.str "Title", Cell.nan], [Cell.str "x", Cell.str "y"]]

/-- A sheet whose single measurement belongs to a CAS no molecule carries. -/
def gridB : Grid :=
  [[Cell.str "Ligand CAS RN", Cell.str "Parameter", Cell.str "Value"],
   [Cell.str "64-17-5", Cell.str "IC50", Cell.str "1"]]

/-- A sheet with two rows both missing their identifier. -/
def gridTwoBlank : Grid :=
  [[Cell.str "Ligand CAS RN", Cell.str "Parameter", Cell.str "Value"],
   [Cell.nan, Cell.str "IC50", Cell.str "9"],
   [Cell.nan, Cell.str "MIC", Cell.str "3"]]

/-- A sheet whose identifiers occur in the order "b", "a". -/
def gridBA : Grid :=
  [[Cell.str "Ligand CAS RN", Cell.str "Parameter", Cell.str "Value"],
   [Cell.str "b", Cell.str "IC50", Cell.str "1"],
   [Cell.str "a", Cell.str "IC50", Cell.str "2"]]

/-- A sheet with a column named "SMILES", clashing with an SDF column. -/
def gridClash : Grid :=
  [[Cell.str "Ligand CAS RN", Cell.str "SMILES", Cell.str "Value"],
   [Cell.str "50-00-0", Cell.str "excelSmiles", Cell.str "1"]]

/-- The SDF-side table the pipeline builds from the given sources
(lines 154-179). -/
def sdfOf (sources : List (String × List (Option Mol))) : Table :=
  addCasNormSdf (buildSdfTable (collect sources))

/-- The pharmacology data frame the pipeline builds from a grid
(lines 186-189); empty when the header row is absent. -/
def pharmDfOf (g : Grid) : Table :=
  addCasNormPharm ((load_pharmacology_excel g).getD [])

/-! ### Lemmas about `insertKey`, `sortedKeys`, `pdUnique` -/

theorem strLtChars_iff : ∀ (as bs : List Char),
    strLtChars as bs = true ↔ List.Lex (· < ·) as bs := by
  intro as
  induction as with
  | nil =>
    intro bs
    cases bs with
    | nil =>
      refine iff_of_false (by simp [strLtChars]) (List.Lex.not_nil_right _ _)
    | cons b bs =>
      exact iff_of_true (by simp [strLtChars]) List.Lex.nil
  | cons a as ih =>
    intro bs
    cases bs with
    | nil =>
      refine iff_of_false (by simp [strLtChars]) (List.Lex.not_nil_right _ _)
    | cons b bs =>
      by_cases h1 : a.toNat < b.toNat
      · refine iff_of_true (by simp [strLtChars, h1]) (List.Lex.rel h1)
      · by_cases h2 : b.toNat < a.toNat
        · refine iff_of_false (by simp [strLtChars, h1, h2]) ?_
          intro hl
          cases hl with
          | rel h => exact h1 h
          | cons h => exact Nat.lt_irrefl _ h2
        · have hab : a = b :=
            Char.ext (UInt32.ext (Nat.le_antisymm (Nat.not_lt.1 h2) (Nat.not_lt.1 h1)))
          subst hab
          have hs : strLtChars (a :: as) (a :: bs) = strLtChars as bs := by
            simp [strLtChars]
          rw [hs, ih bs]
          exact List.Lex.cons_iff.symm

theorem pyStrLt_iff {s t : String} : pyStrLt s t = true ↔ s < t := by
  rw [String.lt_iff_toList_lt]
  exact strLtChars_iff s.data t.data

theorem mem_insertKey {a k : String} {l : List String} :
    a ∈ insertKey k l ↔ a = k ∨ a ∈ l := by
  induction l with
  | nil => simp [insertKey]
  | cons b l ih =>
    by_cases hk : k = b
    · subst hk
      simp [insertKey]
    · by_cases hlt : pyStrLt k b
      · simp only [insertKey, if_neg hk, if_pos hlt, List.mem_cons]
      · simp only [insertKey, if_neg hk, if_neg hlt, List.mem_cons, ih]
        tauto

theorem pairwise_insertKey {k : String} {l : List String}
    (h : l.Pairwise (· < ·)) : (insertKey k l).Pairwise (· < ·) := by
  induction l with
  | nil => simp [insertKey]
  | cons b l ih =>
    rcases List.pairwise_cons.1 h with ⟨hb, hl⟩
    by_cases hk : k = b
    · subst hk; simpa [insertKey] using h
    · by_cases hlt : pyStrLt k b
      · have hkb : k < b := pyStrLt_iff.1 hlt
        simp only [insertKey, if_neg hk, if_pos hlt]
        refine List.pairwise_cons.2 ⟨?_, h⟩
        intro x hx
        rcases List.mem_cons.1 hx with rfl | hx
        · exact hkb
        · exact lt_trans hkb (hb x hx)
      · have hnkb : ¬ k < b := fun hc => hlt (pyStrLt_iff.2 hc)
        have hbk : b < k := lt_of_le_of_ne (not_lt.1 hnkb) (Ne.symm hk)
        simp only [insertKey, if_neg hk, if_neg hlt]
        refine List.pairwise_cons.2 ⟨?_, ih hl⟩
        intro x hx
        rcases mem_insertKey.1 hx with rfl | hx
        · exact hbk
        · exact hb x hx

theorem sortedKeys_aux_mem {a : String} :
    ∀ (ks acc : List String), a ∈ ks.foldl (fun acc k => insertKey k acc) acc ↔ a ∈ acc ∨ a ∈ ks := by
  intro ks
  induction ks with
  | nil => simp
  | cons k ks ih =>
    intro acc
    simp only [List.foldl_cons, ih, mem_insertKey, List.mem_cons]
    tauto

theorem mem_sortedKeys {a : String} {ks : List String} :
    a ∈ sortedKeys ks ↔ a ∈ ks := by
  simpa [sortedKeys] using sortedKeys_aux_mem ks []

theorem sortedKeys_aux_pairwise :
    ∀ (ks acc : List String), acc.Pairwise (· < ·) →
      (ks.foldl (fun acc k => insertKey k acc) acc).Pairwise (· < ·) := by
  intro ks
  induction ks with
  | nil => intro acc h; simpa using h
  | cons k ks ih =>
    intro acc h
    exact ih _ (pairwise_insertKey h)

theorem pairwise_sortedKeys (ks : List String) : (sortedKeys ks).Pairwise (· < ·) :=
  sortedKeys_aux_pairwise ks [] (by simp)

theorem nodup_sortedKeys (ks : List String) : (sortedKeys ks).Nodup :=
  (pairwise_sortedKeys ks).imp ne_of_lt

theorem mem_pdUnique {a : String} : ∀ {l : List String}, a ∈ pdUnique l ↔ a ∈ l := by
  intro l
  induction l with
  | nil => simp [pdUnique]
  | cons b l ih =>
    rw [pdUnique]
    by_cases hb : a = b
    · subst hb; simp
    · simp only [List.mem_cons, List.mem_filter, ih, hb, false_or]
      constructor
      · exact fun h => h.1
      · exact fun h => ⟨h, by simpa using hb⟩

theorem nodup_pdUnique : ∀ (l : List String), (pdUnique l).Nodup := by
  intro l
  induction l with
  | nil => simp [pdUnique]
  | cons b l ih =>
    rw [pdUnique]
    refine List.nodup_cons.2 ⟨?_, List.Nodup.filter _ ih⟩
    intro hb
    have := (List.mem_filter.1 hb).2
    simp at this

theorem sublist_pdUnique : ∀ (l : List String), (pdUnique l).Sublist l := by
  intro l
  induction l with
  | nil => simp [pdUnique]
  | cons b l ih =>
    rw [pdUnique]
    exact List.Sublist.cons₂ b ((List.filter_sublist _).trans ih)

theorem pdUnique_eq_nil {l : List String} : pdUnique l = [] ↔ l = [] := by
  cases l with
  | nil => simp [pdUnique]
  | cons b l => rw [pdUnique]; simp

/-! ### Lemmas about `List.lookup` and `dictInsert` -/

theorem lookup_cons_self {β : Type} (k : String) (v : β) (r : List (String × β)) :
    List.lookup k ((k, v) :: r) = some v := by
  simp [List.lookup]

theorem lookup_cons_ne {β : Type} {k a : String} (v : β) (r : List (String × β))
    (h : k ≠ a) : List.lookup k ((a, v) :: r) = List.lookup k r := by
  simp [List.lookup, beq_eq_false_iff_ne.2 h]

theorem lookup_append {β : Type} (k : String) (r s : List (String × β)) :
    List.lookup k (r ++ s) = (List.lookup k r).or (List.lookup k s) := by
  induction r with
  | nil => simp [List.lookup]
  | cons p r ih =>
    by_cases h : k = p.1
    · subst h
      simp [List.lookup]
    · rw [List.cons_append]
      cases p with
      | mk a v =>
        rw [lookup_cons_ne v _ h, lookup_cons_ne v _ h, ih]

theorem lookup_isSome_iff {β : Type} {k : String} {r : List (String × β)} :
    (List.lookup k r).isSome ↔ k ∈ r.map Prod.fst := by
  induction r with
  | nil => simp [List.lookup]
  | cons p r ih =>
    by_cases h : k = p.1
    · subst h
      cases p with
      | mk a v => simp [lookup_cons_self]
    · cases p with
      | mk a v =>
        rw [lookup_cons_ne v _ h]
        simp only [List.map_cons, List.mem_cons, ih]
        exact ⟨Or.inr, fun hh => hh.resolve_left h⟩

theorem lookup_map_replace_self (k : String) (v : Cell) (r : Row) :
    List.lookup k (r.map (fun p => if p.1 = k then (k, v) else p)) =
      if (List.lookup k r).isSome then some v else none := by
  induction r with
  | nil => simp [List.lookup]
  | cons p r ih =>
    by_cases h : p.1 = k
    · cases p with
      | mk a w =>
        simp only at h
        subst h
        simp [lookup_cons_self]
    · cases p with
      | mk a w =>
        simp only at h
        have hk : k ≠ a := fun hh => h hh.symm
        simp only [List.map_cons, if_neg h]
        rw [lookup_cons_ne w _ hk, lookup_cons_ne w _ hk, ih]

theorem lookup_map_replace_ne {k' k : String} (v : Cell) (r : Row) (h : k' ≠ k) :
    List.lookup k' (r.map (fun p => if p.1 = k then (k, v) else p)) = List.lookup k' r := by
  induction r with
  | nil => simp
  | cons p r ih =>
    cases p with
    | mk a w =>
      by_cases ha : a = k
      · subst ha
        simp only [List.map_cons]
        rw [lookup_cons_ne w _ h]
        split
        · rw [lookup_cons_ne v _ h]; exact ih
        · rename_i hf; exact absurd trivial hf
      · simp only [List.map_cons, if_neg ha]
        by_cases hk : k' = a
        · subst hk
          rw [lookup_cons_self, lookup_cons_self]
        · rw [lookup_cons_ne w _ hk, lookup_cons_ne w _ hk, ih]

theorem dictInsert_lookup_self (r : Row) (k : String) (v : Cell) :
    List.lookup k (dictInsert r k v) = some v := by
  unfold dictInsert
  by_cases h : (List.lookup k r).isSome
  · rw [if_pos h, lookup_map_replace_self, if_pos h]
  · rw [if_neg h, lookup_append]
    have : List.lookup k r = none := Option.not_isSome_iff_eq_none.1 h
    rw [this, lookup_cons_self]
    rfl

theorem dictInsert_lookup_ne {k' k : String} (r : Row) (v : Cell) (h : k' ≠ k) :
    List.lookup k' (dictInsert r k v) = List.lookup k' r := by
  unfold dictInsert
  by_cases hs : (List.lookup k r).isSome
  · rw [if_pos hs, lookup_map_replace_ne v r h]
  · rw [if_neg hs, lookup_append, lookup_cons_ne v _ h]
    cases List.lookup k' r <;> rfl

theorem dictInsert_keys (r : Row) (k : String) (v : Cell) :
    (dictInsert r k v).map Prod.fst = keysInsert (r.map Prod.fst) k := by
  unfold dictInsert keysInsert
  by_cases h : (List.lookup k r).isSome
  · rw [if_pos h, if_pos (lookup_isSome_iff.1 h), List.map_map]
    refine List.map_congr_left ?_
    intro p _
    by_cases hp : p.1 = k
    · simp [Function.comp, hp]
    · simp [Function.comp, hp]
  · rw [if_neg h, if_neg (fun hm => h (lookup_isSome_iff.2 hm))]
    simp

theorem foldl_dictInsert_keys (f : String → Cell) :
    ∀ (l : List String) (base : Row),
      ((l.foldl (fun r p => dictInsert r p (f p)) base)).map Prod.fst =
        l.foldl keysInsert (base.map Prod.fst) := by
  intro l
  induction l with
  | nil => intro base; rfl
  | cons p l ih =>
    intro base
    simp only [List.foldl_cons]
    rw [ih, dictInsert_keys]

theorem lookup_foldl_dictInsert_not_mem (f : String → Cell) {k : String} :
    ∀ (l : List String) (base : Row), k ∉ l →
      List.lookup k (l.foldl (fun r p => dictInsert r p (f p)) base) = List.lookup k base := by
  intro l
  induction l with
  | nil => intro base _; rfl
  | cons p l ih =>
    intro base hk
    simp only [List.foldl_cons]
    rw [ih _ (fun hm => hk (List.mem_cons_of_mem _ hm)),
      dictInsert_lookup_ne _ _ (fun he => hk (by rw [he]; exact List.mem_cons_self _ _))]

theorem lookup_foldl_dictInsert (f : String → Cell) {k : String} :
    ∀ (l : List String) (base : Row), k ∈ l → l.Nodup →
      List.lookup k (l.foldl (fun r p => dictInsert r p (f p)) base) = some (f k) := by
  intro l
  induction l with
  | nil => intro base h; cases h
  | cons p l ih =>
    intro base hk hnd
    rcases List.nodup_cons.1 hnd with ⟨hp, hnd'⟩
    simp only [List.foldl_cons]
    rcases List.mem_cons.1 hk with rfl | hk'
    · rw [lookup_foldl_dictInsert_not_mem f l _ hp, dictInsert_lookup_self]
    · exact ih _ hk' hnd'

/-! ### Lemmas about the aggregated table and the left join -/

theorem cellStr_injective : Function.Injective Cell.str := by
  intro a b h
  injection h

theorem aggregate_map_groupKey (t : Table) :
    (aggregate_pharmacology_by_cas t).map groupKey
      = sortedKeys ((pharmPrep t).map groupKey) := by
  unfold aggregate_pharmacology_by_cas
  rw [List.map_map]
  conv_rhs => rw [← List.map_id (sortedKeys ((pharmPrep t).map groupKey))]
  refine List.map_congr_left ?_
  intro k _
  simp only [Function.comp]
  rw [groupKey, lookup_cons_self]
  rfl

theorem aggregate_map_keycell (t : Table) :
    (aggregate_pharmacology_by_cas t).map (fun r => (List.lookup "cas_norm" r).getD Cell.nan)
      = (sortedKeys ((pharmPrep t).map groupKey)).map Cell.str := by
  unfold aggregate_pharmacology_by_cas
  rw [List.map_map]
  refine List.map_congr_left ?_
  intro k _
  simp only [Function.comp]
  rw [lookup_cons_self]
  rfl

theorem nodup_aggregate_keycell (t : Table) :
    ((aggregate_pharmacology_by_cas t).map
      (fun r => (List.lookup "cas_norm" r).getD Cell.nan)).Nodup := by
  rw [aggregate_map_keycell]
  exact (nodup_sortedKeys _).map cellStr_injective

theorem length_filter_beq_le_one {α β : Type} [DecidableEq β] (f : α → β) (c : β) :
    ∀ l : List α, (l.map f).Nodup → (l.filter (fun a => f a == c)).length ≤ 1 := by
  intro l
  induction l with
  | nil => intro _; simp
  | cons a l ih =>
    intro hnd
    rw [List.map_cons, List.nodup_cons] at hnd
    obtain ⟨ha, hnd'⟩ := hnd
    by_cases hc : f a == c
    · have hfa : f a = c := by simpa using hc
      have hnil : l.filter (fun a => f a == c) = [] := by
        refine List.filter_eq_nil_iff.2 ?_
        intro x hx hfx
        have hxc : f x = c := by simpa using hfx
        exact ha (List.mem_map.2 ⟨x, hx, hxc.trans hfa.symm⟩)
      simp [List.filter_cons, hc, hnil]
    · have hcf : (f a == c) = false := by simpa using hc
      simpa [List.filter_cons, hcf] using ih hnd'

theorem joinRow_length {leftCols : List String} {sfx : String} {right : Table} (l : Row)
    (h : (right.map (fun r => (List.lookup "cas_norm" r).getD Cell.nan)).Nodup) :
    (joinRow leftCols sfx right l).length = 1 := by
  unfold joinRow
  by_cases he :
      (right.filter (fun r =>
        (List.lookup "cas_norm" r).getD Cell.nan == (List.lookup "cas_norm" l).getD Cell.nan)).isEmpty
  · simp [he]
  · rw [if_neg he, List.length_map]
    have hle : (right.filter (fun r =>
        (List.lookup "cas_norm" r).getD Cell.nan
          == (List.lookup "cas_norm" l).getD Cell.nan)).length ≤ 1 :=
      length_filter_beq_le_one
        (fun r => (List.lookup "cas_norm" r).getD Cell.nan)
        ((List.lookup "cas_norm" l).getD Cell.nan) right h
    have hne : (right.filter (fun r =>
        (List.lookup "cas_norm" r).getD Cell.nan == (List.lookup "cas_norm" l).getD Cell.nan)) ≠ [] := by
      intro hnil
      exact he (by simp [hnil])
    have hpos : 1 ≤ (right.filter (fun r =>
        (List.lookup "cas_norm" r).getD Cell.nan == (List.lookup "cas_norm" l).getD Cell.nan)).length :=
      List.length_pos.2 hne
    omega

theorem mergeLeftCas_length (sfx : String) (left right : Table)
    (h : (right.map (fun r => (List.lookup "cas_norm" r).getD Cell.nan)).Nodup) :
    (mergeLeftCas sfx left right).length = left.length := by
  unfold mergeLeftCas
  rw [List.length_flatMap]
  have hone : ∀ l ∈ left, (List.length ∘ joinRow (headCols left) sfx right) l = 1 :=
    fun l _ => joinRow_length l h
  rw [List.map_congr_left hone]
  simp

/-! ### Claim theorems -/

/-- C2: the claim says that when no first-column cell equals "Ligand CAS RN",
the run reports and continues, skipping the pharmacology step and still
producing the full merged table.  The code instead raises an uncaught
`IndexError` at line 56 (reached from line 186): with one valid molecule and a
header-less sheet the run crashes before any table is produced, whereas the
same upload without the sheet succeeds. -/
theorem claim_C2 :
    findHeaderIdx gridNoHeader = none ∧
    runPipeline src0 (some gridNoHeader) none = RunOutcome.crashed ∧
    runPipeline src0 none none ≠ RunOutcome.crashed :=
  ⟨by decide, by decide, by decide⟩

/-- C3 counterexample: a pharmacology row with a missing identifier gets
JoinKey "nan", while a structure record with a missing identifier gets JoinKey
"None"; the keys differ, and in the full merged table the blank record's
pharmacology fields are `NaN` — the two blank rows do not match, contrary to
the claim. -/
theorem claim_C3_counterexample :
    groupKey ((pharmDfOf gridTwoBlank).getD 0 []) = "nan" ∧
    groupKey ((sdfOf src0).getD 1 []) = "None" ∧
    ("nan" : String) ≠ "None" ∧
    List.lookup "Parameter"
      ((mergeLeftCas "_pharm" (sdfOf src0)
        (aggregate_pharmacology_by_cas (pharmDfOf gridTwoBlank))).getD 1 []) =
      some Cell.nan :=
  ⟨by decide, by decide, by decide, by decide⟩

/-- C3 amended: both sides are normalized by the same string-cast-then-trim
step (`casNormCell`), but the missing markers stringify differently: Python
`None` (record side) becomes "None" while `NaN` (sheet side) becomes "nan".
A blank record therefore does not match a blank pharmacology row in the full
merge; blank rows only collapse together within the pharmacology side, whose
blank rows all share the single aggregated group "nan". -/
theorem claim_C3_amended :
    casNormCell Cell.pynone = Cell.str "None" ∧
    casNormCell Cell.nan = Cell.str "nan" ∧
    casNormCell Cell.pynone ≠ casNormCell Cell.nan ∧
    (aggregate_pharmacology_by_cas (pharmDfOf gridTwoBlank)).map groupKey = ["nan"] ∧
    List.lookup "Value"
      ((mergeLeftCas "_pharm" (sdfOf src0)
        (aggregate_pharmacology_by_cas (pharmDfOf gridTwoBlank))).getD 1 []) =
      some Cell.nan :=
  ⟨by decide, by decide, by decide, by decide, by decide⟩

/-- C4 counterexample: for input keys in order "b", "a" the aggregated table
emits its groups as "a", "b" (pandas `groupby` sorts group keys), not in the
first-occurrence order "b", "a" the claim states. -/
theorem claim_C4_counterexample :
    (aggregate_pharmacology_by_cas (pharmDfOf gridBA)).map groupKey = ["a", "b"] ∧
    specFirstOccurrenceKeys (pharmDfOf gridBA) = ["b", "a"] ∧
    (["a", "b"] : List String) ≠ ["b", "a"] :=
  ⟨by decide, by decide, by decide⟩

/-- C4 amended: for every pharmacology input the aggregated-by-JoinKey table
emits its groups in strictly ascending sorted key order, one group per key
occurring in the prepared input. -/
theorem claim_C4_amended (t : Table) :
    ((aggregate_pharmacology_by_cas t).map groupKey).Pairwise (· < ·) ∧
    (∀ k, k ∈ (aggregate_pharmacology_by_cas t).map groupKey ↔
      ∃ r ∈ pharmPrep t, groupKey r = k) := by
  constructor
  · rw [aggregate_map_groupKey]
    exact pairwise_sortedKeys _
  · intro k
    rw [aggregate_map_groupKey, mem_sortedKeys, List.mem_map]

/-- C5 counterexample: the aggregated table does not exclude the identifier
column: "Ligand CAS RN" is one of its columns, aggregated like any other. -/
theorem claim_C5_counterexample :
    "Ligand CAS RN" ∈ headCols (aggregate_pharmacology_by_cas (pharmDfOf gridBA)) ∧
    headCols (aggregate_pharmacology_by_cas (pharmDfOf gridBA)) =
      ["cas_norm", "Ligand CAS RN", "Parameter", "Value"] :=
  ⟨by decide, by decide⟩

/-- Columns of every row of the aggregated table: the key first, then every
prepared-input column other than the key. -/
theorem aggregate_row_cols {t : Table} {row : Row}
    (hrow : row ∈ aggregate_pharmacology_by_cas t) :
    row.map Prod.fst =
      "cas_norm" :: (headCols (pharmPrep t)).filter (fun c => c ≠ "cas_norm") := by
  unfold aggregate_pharmacology_by_cas at hrow
  rcases List.mem_map.1 hrow with ⟨k, -, hk⟩
  rw [← hk]
  simp only [List.map_cons, List.map_map]
  congr 1
  have hid : ∀ c ∈ (headCols (pharmPrep t)).filter (fun c => c ≠ "cas_norm"),
      (Prod.fst ∘ fun c =>
        ((c, match agg_unique (colCells (List.filter (fun r => groupKey r == k) (pharmPrep t)) c) with
             | some s => Cell.str s
             | none => Cell.pynone) : String × Cell)) c = id c :=
    fun c _ => rfl
  rw [List.map_congr_left hid, List.map_id]

/-- The key-less column list of the prepared input, for a table whose rows all
carry the same column list. -/
theorem pharmPrep_filter_cols {r : Row} {rest : List Row} {cs : List String}
    (hr : r.map Prod.fst = cs) :
    (headCols (pharmPrep (r :: rest))).filter (fun c => c ≠ "cas_norm")
      = cs.filter (fun c => c ≠ "cas_norm") := by
  have hhead : headCols (r :: rest) = cs := hr
  unfold pharmPrep
  rw [hhead]
  by_cases hmem : "cas_norm" ∈ cs
  · rw [if_pos hmem, hhead]
  · rw [if_neg hmem]
    have hadd : headCols (addCasNormPharm (r :: rest))
        = keysInsert (r.map Prod.fst) "cas_norm" := by
      unfold addCasNormPharm headCols
      simp only [List.map_cons, List.headD_cons]
      exact dictInsert_keys _ _ _
    rw [hadd, hr, keysInsert, if_neg hmem, List.filter_append]
    simp

/-- C5 amended: the aggregated pharmacology table has one row per distinct
JoinKey, and its columns are the JoinKey (`cas_norm`) plus one column per
original sheet column, excluding only the synthetic JoinKey column itself —
the identifier column "Ligand CAS RN" is kept. -/
theorem claim_C5_amended (t : Table) (cs : List String)
    (hcs : ∀ r ∈ t, r.map Prod.fst = cs) :
    (∀ row ∈ aggregate_pharmacology_by_cas t,
        row.map Prod.fst = "cas_norm" :: cs.filter (fun c => c ≠ "cas_norm")) ∧
    ((aggregate_pharmacology_by_cas t).map groupKey).Nodup ∧
    (∀ k, k ∈ (aggregate_pharmacology_by_cas t).map groupKey ↔
        ∃ r ∈ pharmPrep t, groupKey r = k) := by
  refine ⟨?_, ?_, ?_⟩
  · intro row hrow
    cases t with
    | nil =>
      rw [show aggregate_pharmacology_by_cas [] = [] from rfl] at hrow
      cases hrow
    | cons r rest =>
      rw [aggregate_row_cols hrow,
        pharmPrep_filter_cols (hcs r (List.mem_cons_self _ _))]
  · rw [aggregate_map_groupKey]
    exact nodup_sortedKeys _
  · intro k
    rw [aggregate_map_groupKey, mem_sortedKeys, List.mem_map]

/-- C5 witness: the amended statement evaluated on the sheet with keys "b",
"a", whose rows all carry the three header columns. -/
theorem claim_C5_witness :
    (∀ row ∈ aggregate_pharmacology_by_cas ((load_pharmacology_excel gridBA).getD []),
        row.map Prod.fst =
          "cas_norm" :: (["Ligand CAS RN", "Parameter", "Value"].filter
            (fun c => c ≠ "cas_norm"))) ∧
    ((aggregate_pharmacology_by_cas ((load_pharmacology_excel gridBA).getD [])).map
        groupKey).Nodup ∧
    (∀ k, k ∈ (aggregate_pharmacology_by_cas
          ((load_pharmacology_excel gridBA).getD [])).map groupKey ↔
        ∃ r ∈ pharmPrep ((load_pharmacology_excel gridBA).getD []), groupKey r = k) :=
  claim_C5_amended ((load_pharmacology_excel gridBA).getD [])
    ["Ligand CAS RN", "Parameter", "Value"] (by decide)

/-- C7: per-group per-column aggregation takes the values in row order, drops
nulls, casts to string, deduplicates keeping first occurrences, and joins the
survivors with " | "; an empty survivor set yields null, and the concrete
values 5, 5, 7, null aggregate to "5 | 7". -/
theorem claim_C7 :
    agg_unique [Cell.str "5", Cell.str "5", Cell.str "7", Cell.nan] = some "5 | 7" ∧
    (∀ cells : List Cell, (agg_unique cells = none ↔ ∀ c ∈ cells, c.isna = true)) ∧
    (∀ (cells : List Cell) (s : String), agg_unique cells = some s →
      ∃ vs : List String, vs ≠ [] ∧ vs.Nodup ∧
        vs.Sublist ((cells.filter (fun c => !c.isna)).map pyStr) ∧
        (∀ v, v ∈ vs ↔ ∃ c ∈ cells, c.isna = false ∧ pyStr c = v) ∧
        s = String.intercalate " | " vs) := by
  refine ⟨by decide, ?_, ?_⟩
  · intro cells
    unfold agg_unique
    by_cases h : (pdUnique ((cells.filter (fun c => !c.isna)).map pyStr)).isEmpty
    · rw [if_pos h]
      refine iff_of_true rfl ?_
      intro c hc
      have hnil := List.isEmpty_iff.1 h
      have hfnil : cells.filter (fun c => !c.isna) = [] := by
        have := pdUnique_eq_nil.1 hnil
        exact List.map_eq_nil_iff.1 this
      have := List.filter_eq_nil_iff.1 hfnil c hc
      simpa using this
    · rw [if_neg h]
      refine iff_of_false (by simp) ?_
      intro hall
      refine h ?_
      have hfnil : cells.filter (fun c => !c.isna) = [] :=
        List.filter_eq_nil_iff.2 (fun c hc => by simp [hall c hc])
      simp [hfnil, pdUnique]
  · intro cells s hs
    unfold agg_unique at hs
    by_cases h : (pdUnique ((cells.filter (fun c => !c.isna)).map pyStr)).isEmpty
    · rw [if_pos h] at hs
      cases hs
    · rw [if_neg h] at hs
      refine ⟨pdUnique ((cells.filter (fun c => !c.isna)).map pyStr),
        fun hnil => h (by simp [hnil]), nodup_pdUnique _, sublist_pdUnique _, ?_, ?_⟩
      · intro v
        rw [mem_pdUnique, List.mem_map]
        constructor
        · rintro ⟨c, hc, hv⟩
          rcases List.mem_filter.1 hc with ⟨hcc, hcna⟩
          exact ⟨c, hcc, by simpa using hcna, hv⟩
        · rintro ⟨c, hcc, hcna, hv⟩
          exact ⟨c, List.mem_filter.2 ⟨hcc, by simp [hcna]⟩, hv⟩
      · exact (Option.some.injEq _ _ ▸ hs).symm

/-- C7 witness: the characterization applied to the concrete value list. -/
theorem claim_C7_witness :
    ∃ vs : List String, vs ≠ [] ∧ vs.Nodup ∧
      vs.Sublist (([Cell.str "5", Cell.str "5", Cell.str "7", Cell.nan].filter
        (fun c => !c.isna)).map pyStr) ∧
      (∀ v, v ∈ vs ↔ ∃ c ∈ [Cell.str "5", Cell.str "5", Cell.str "7", Cell.nan],
        c.isna = false ∧ pyStr c = v) ∧
      "5 | 7" = String.intercalate " | " vs :=
  claim_C7.2.2 [Cell.str "5", Cell.str "5", Cell.str "7", Cell.nan] "5 | 7" (by decide)

/-- C6: the full merged table has exactly one row per record row, whatever the
pharmacology input; a record row matching no aggregated key still contributes
one row, whose appended pharmacology cells are all `NaN`. -/
theorem claim_C6 (sdf pharm : Table) :
    (mergeLeftCas "_pharm" sdf (aggregate_pharmacology_by_cas pharm)).length = sdf.length ∧
    ∀ l ∈ sdf,
      (∀ a ∈ aggregate_pharmacology_by_cas pharm,
          (List.lookup "cas_norm" a).getD Cell.nan ≠ (List.lookup "cas_norm" l).getD Cell.nan) →
      ∃ row ∈ mergeLeftCas "_pharm" sdf (aggregate_pharmacology_by_cas pharm),
        row.take l.length = l ∧ ∀ q ∈ row.drop l.length, q.2 = Cell.nan := by
  constructor
  · exact mergeLeftCas_length _ _ _ (nodup_aggregate_keycell pharm)
  · intro l hl hnomatch
    have hhits : (aggregate_pharmacology_by_cas pharm).filter
        (fun r => (List.lookup "cas_norm" r).getD Cell.nan
          == (List.lookup "cas_norm" l).getD Cell.nan) = [] := by
      refine List.filter_eq_nil_iff.2 ?_
      intro a ha hba
      exact hnomatch a ha (by simpa using hba)
    refine ⟨l ++ (((aggregate_pharmacology_by_cas pharm).headD []).filter
        (fun p => p.1 ≠ "cas_norm")).map
        (fun p => (suffixName (headCols sdf) "_pharm" p.1, Cell.nan)), ?_, ?_, ?_⟩
    · unfold mergeLeftCas
      refine List.mem_flatMap.2 ⟨l, hl, ?_⟩
      simp only [joinRow]
      rw [hhits]
      simp
    · rw [List.take_left]
    · intro q hq
      rw [List.drop_left] at hq
      rcases List.mem_map.1 hq with ⟨p, _, hp⟩
      rw [← hp]

/-- C6 witness: one record whose CAS matches no pharmacology row: the merge
keeps its single row and fills the pharmacology columns with `NaN`. -/
theorem claim_C6_witness :
    (mergeLeftCas "_pharm" (sdfOf srcA)
      (aggregate_pharmacology_by_cas (pharmDfOf gridB))).length = (sdfOf srcA).length ∧
    ∃ row ∈ mergeLeftCas "_pharm" (sdfOf srcA)
        (aggregate_pharmacology_by_cas (pharmDfOf gridB)),
      row.take ((sdfOf srcA).getD 0 []).length = (sdfOf srcA).getD 0 [] ∧
      ∀ q ∈ row.drop ((sdfOf srcA).getD 0 []).length, q.2 = Cell.nan := by
  have h := claim_C6 (sdfOf srcA) (pharmDfOf gridB)
  exact ⟨h.1, h.2 ((sdfOf srcA).getD 0 []) (by decide) (by decide)⟩

/-- C9: every row of the full merged table starts with its record row
unchanged (names and values); the appended cells all come from non-key
pharmacology columns, renamed with the suffix "_pharm" exactly when the name
collides with a record-side column, and carry either a value of a matching
aggregated row or the `NaN` fill. -/
theorem claim_C9 (sdf pharm : Table) :
    ∀ row ∈ mergeLeftCas "_pharm" sdf (aggregate_pharmacology_by_cas pharm),
      ∃ l ∈ sdf, row.take l.length = l ∧
        ∀ q ∈ row.drop l.length,
          ∃ c, c ≠ "cas_norm" ∧
            q.1 = (if c ∈ headCols sdf then c ++ "_pharm" else c) ∧
            ((∃ a ∈ aggregate_pharmacology_by_cas pharm, (c, q.2) ∈ a) ∨ q.2 = Cell.nan) := by
  intro row hrow
  unfold mergeLeftCas at hrow
  rcases List.mem_flatMap.1 hrow with ⟨l, hl, hjoin⟩
  refine ⟨l, hl, ?_⟩
  simp only [joinRow] at hjoin
  by_cases he : ((aggregate_pharmacology_by_cas pharm).filter
      (fun r => (List.lookup "cas_norm" r).getD Cell.nan
        == (List.lookup "cas_norm" l).getD Cell.nan)).isEmpty
  · rw [if_pos he] at hjoin
    rcases List.mem_singleton.1 hjoin with rfl
    refine ⟨List.take_left _ _, ?_⟩
    intro q hq
    rw [List.drop_left] at hq
    rcases List.mem_map.1 hq with ⟨p, hp, hpq⟩
    rcases List.mem_filter.1 hp with ⟨_, hpc⟩
    refine ⟨p.1, by simpa using hpc, ?_, Or.inr ?_⟩
    · rw [← hpq, suffixName]
    · rw [← hpq]
  · rw [if_neg he] at hjoin
    rcases List.mem_map.1 hjoin with ⟨m, hm, hrow'⟩
    rcases List.mem_filter.1 hm with ⟨hma, _⟩
    subst hrow'
    refine ⟨List.take_left _ _, ?_⟩
    intro q hq
    rw [List.drop_left] at hq
    rcases List.mem_map.1 hq with ⟨p, hp, hpq⟩
    rcases List.mem_filter.1 hp with ⟨hpm, hpc⟩
    refine ⟨p.1, by simpa using hpc, ?_, Or.inl ⟨m, hma, ?_⟩⟩
    · rw [← hpq, suffixName]
    · rw [← hpq]
      exact hpm

/-- C9 witness: a pharmacology sheet with a column named "SMILES" clashing
with the record-side column, applied to the first merged row. -/
theorem claim_C9_witness :
    ∃ l ∈ sdfOf srcA,
      ((mergeLeftCas "_pharm" (sdfOf srcA)
        (aggregate_pharmacology_by_cas (pharmDfOf gridClash))).getD 0 []).take l.length = l ∧
      ∀ q ∈ ((mergeLeftCas "_pharm" (sdfOf srcA)
          (aggregate_pharmacology_by_cas (pharmDfOf gridClash))).getD 0 []).drop l.length,
        ∃ c, c ≠ "cas_norm" ∧
          q.1 = (if c ∈ headCols (sdfOf srcA) then c ++ "_pharm" else c) ∧
          ((∃ a ∈ aggregate_pharmacology_by_cas (pharmDfOf gridClash), (c, q.2) ∈ a) ∨
            q.2 = Cell.nan) :=
  claim_C9 (sdfOf srcA) (pharmDfOf gridClash) _ (by decide)

theorem mem_keysInsert {a k : String} {ks : List String} :
    a ∈ keysInsert ks k ↔ a ∈ ks ∨ a = k := by
  unfold keysInsert
  by_cases h : k ∈ ks
  · rw [if_pos h]
    exact ⟨Or.inl, fun hh => hh.elim id (fun he => he ▸ h)⟩
  · rw [if_neg h]
    simp

theorem mem_foldl_keysInsert {a : String} :
    ∀ (l acc : List String), a ∈ l.foldl keysInsert acc ↔ a ∈ acc ∨ a ∈ l := by
  intro l
  induction l with
  | nil => simp
  | cons k l ih =>
    intro acc
    simp only [List.foldl_cons, ih, mem_keysInsert, List.mem_cons]
    tauto

theorem buildRow_keys (univ : List String) (i : Nat) (m : Mol) (src : String) :
    (buildRow univ i m src).map Prod.fst = univ.foldl keysInsert ["ID", "SourceFile", "SMILES"] := by
  have h := foldl_dictInsert_keys
    (fun q => (match List.lookup q m.props with | some v => Cell.str v | none => Cell.pynone))
    univ
    (dictInsert (dictInsert (dictInsert [] "ID" (Cell.int i)) "SourceFile" (Cell.str src))
      "SMILES" (match m.smiles with | some s => Cell.str s | none => Cell.pynone))
  have hbase : (dictInsert (dictInsert (dictInsert [] "ID" (Cell.int i)) "SourceFile" (Cell.str src))
      "SMILES" (match m.smiles with | some s => Cell.str s | none => Cell.pynone)).map Prod.fst
      = ["ID", "SourceFile", "SMILES"] := by
    rfl
  rw [hbase] at h
  exact h

theorem buildRow_lookup_missing (univ : List String) (i : Nat) (m : Mol) (src : String)
    {p : String} (hp : p ∈ univ) (hnd : univ.Nodup) (hmiss : List.lookup p m.props = none) :
    List.lookup p (buildRow univ i m src) = some Cell.pynone := by
  have h := lookup_foldl_dictInsert
    (fun q => (match List.lookup q m.props with | some v => Cell.str v | none => Cell.pynone))
    univ
    (dictInsert (dictInsert (dictInsert [] "ID" (Cell.int i)) "SourceFile" (Cell.str src))
      "SMILES" (match m.smiles with | some s => Cell.str s | none => Cell.pynone))
    hp hnd
  have h2 : ((fun q => (match List.lookup q m.props with
      | some v => Cell.str v | none => Cell.pynone)) p) = Cell.pynone := by
    simp only [hmiss]
  exact h.trans (by rw [h2])

/-- C8: every record row carries exactly the same column list `sdfCols`:
`ID`, `SourceFile`, `SMILES` and then the global property universe; the
universe is the strictly sorted union of every property name of every
collected record, each universe name is a column of every row, and a property
a given record lacks is stored as an explicit Python `None`, never omitted. -/
theorem claim_C8 (mols : List (Mol × String)) :
    (∀ row ∈ buildSdfTable mols, row.map Prod.fst = sdfCols mols) ∧
    (∀ p ∈ allProps mols, p ∈ sdfCols mols) ∧
    (allProps mols).Pairwise (· < ·) ∧
    (∀ p, p ∈ allProps mols ↔ ∃ ms ∈ mols, p ∈ ms.1.props.map Prod.fst) ∧
    (∀ (i : Nat) (m : Mol) (src : String), ∀ p ∈ allProps mols,
        List.lookup p m.props = none →
        List.lookup p (buildRow (allProps mols) i m src) = some Cell.pynone) := by
  refine ⟨?_, ?_, ?_, ?_, ?_⟩
  · intro row hrow
    unfold buildSdfTable at hrow
    rcases List.mem_map.1 hrow with ⟨e, _, heq⟩
    rw [← heq, buildRow_keys]
    rfl
  · intro p hp
    unfold sdfCols
    exact (mem_foldl_keysInsert _ _).2 (Or.inr hp)
  · exact pairwise_sortedKeys _
  · intro p
    unfold allProps
    rw [mem_sortedKeys, List.mem_flatMap]
  · intro i m src p hp hmiss
    exact buildRow_lookup_missing _ _ _ _ hp
      ((pairwise_sortedKeys _).imp ne_of_lt) hmiss

/-- C8 witness: the statement applied to the two collected molecules of the
two-record upload, one of which lacks the `cas.rn` property. -/
theorem claim_C8_witness :
    (∀ row ∈ buildSdfTable (collect src0), row.map Prod.fst = sdfCols (collect src0)) ∧
    (∀ p ∈ allProps (collect src0), p ∈ sdfCols (collect src0)) ∧
    (allProps (collect src0)).Pairwise (· < ·) ∧
    (∀ p, p ∈ allProps (collect src0) ↔ ∃ ms ∈ collect src0, p ∈ ms.1.props.map Prod.fst) ∧
    (∀ (i : Nat) (m : Mol) (src : String), ∀ p ∈ allProps (collect src0),
        List.lookup p m.props = none →
        List.lookup p (buildRow (allProps (collect src0)) i m src) = some Cell.pynone) :=
  claim_C8 (collect src0)

/-! ### Lemmas about the Parameter-focused table -/

theorem projBase_lookup_casnorm (l : Row) :
    List.lookup "cas_norm" (projBase l) = some ((List.lookup "cas_norm" l).getD Cell.pynone) := by
  simp [projBase, base_cols, List.lookup]

theorem projPV_lookup_casnorm (r : Row) :
    List.lookup "cas_norm" (projPV r) = some ((List.lookup "cas_norm" r).getD Cell.nan) := by
  simp [projPV, List.lookup]

theorem headCols_projBase (l : Row) (rest : Table) :
    headCols ((l :: rest).map projBase) = base_cols := by
  simp only [headCols, List.map_cons, List.headD_cons, projBase, List.map_map]
  refine (List.map_congr_left ?_).trans (List.map_id _)
  intro c _
  rfl

theorem dropKey_projBase (l : Row) :
    dropKeyCol (projBase l) =
      [("SMILES", (List.lookup "SMILES" l).getD Cell.pynone),
       ("cas.index.name", (List.lookup "cas.index.name" l).getD Cell.pynone),
       ("cas.rn", (List.lookup "cas.rn" l).getD Cell.pynone)] := by
  simp [dropKeyCol, projBase, base_cols, List.filter]

theorem dropKey_append (a b : Row) :
    dropKeyCol (a ++ b) = dropKeyCol a ++ dropKeyCol b := by
  simp [dropKeyCol, List.filter_append]

theorem projPV_filter (r : Row) :
    (projPV r).filter (fun p => p.1 ≠ "cas_norm") =
      [("Parameter", (List.lookup "Parameter" r).getD Cell.nan),
       ("Value", (List.lookup "Value" r).getD Cell.nan)] := by
  simp [projPV, List.filter]

theorem hits_eq (pharm_param : Table) (c : Cell) :
    (pharm_param.map projPV).filter
        (fun rr => (List.lookup "cas_norm" rr).getD Cell.nan == c)
      = (pharm_param.filter
          (fun r => (List.lookup "cas_norm" r).getD Cell.nan == c)).map projPV := by
  rw [List.filter_map]
  congr 1

theorem paramFilter_param_not_na {pharm : Table} {sel : String}
    (hn : pyLower sel ≠ "nan") (hm : pyLower sel ≠ "none") :
    ∀ r ∈ paramFilter pharm sel,
      ((List.lookup "Parameter" r).getD Cell.nan).isna = false := by
  intro r hr
  rcases List.mem_filter.1 hr with ⟨-, hcond⟩
  have heq : pyLower (pyStr ((List.lookup "Parameter" r).getD Cell.nan)) = pyLower sel := by
    simpa using hcond
  cases hc : (List.lookup "Parameter" r).getD Cell.nan with
  | str s => rfl
  | int n => rfl
  | pynone =>
    exfalso
    rw [hc] at heq
    exact hm (heq.symm.trans (by decide))
  | nan =>
    exfalso
    rw [hc] at heq
    exact hn (heq.symm.trans (by decide))

/-- Shape of one joined measurement row after the key column is dropped: the
three ligand-identity cells of the record, then a `Parameter` and a `Value`
cell. -/
theorem paramRow_shape {sdf pharm_param : Table} {r' l : Row}
    (hl : l ∈ sdf) (hne : pharm_param ≠ [])
    (hr' : r' ∈ joinRow (headCols (sdf.map projBase)) "_y" (pharm_param.map projPV)
      (projBase l)) :
    ∃ x1 x2 : Cell, dropKeyCol r' =
      [("SMILES", (List.lookup "SMILES" l).getD Cell.pynone),
       ("cas.index.name", (List.lookup "cas.index.name" l).getD Cell.pynone),
       ("cas.rn", (List.lookup "cas.rn" l).getD Cell.pynone),
       ("Parameter", x1), ("Value", x2)] := by
  have hlc : headCols (sdf.map projBase) = base_cols := by
    cases sdf with
    | nil => cases hl
    | cons s0 rest => exact headCols_projBase s0 rest
  rw [hlc] at hr'
  simp only [joinRow] at hr'
  by_cases he : ((pharm_param.map projPV).filter
      (fun rr => (List.lookup "cas_norm" rr).getD Cell.nan
        == (List.lookup "cas_norm" (projBase l)).getD Cell.nan)).isEmpty
  · rw [if_pos he] at hr'
    rcases List.mem_singleton.1 hr' with rfl
    cases pharm_param with
    | nil => exact absurd rfl hne
    | cons r0 ps =>
      refine ⟨Cell.nan, Cell.nan, ?_⟩
      rw [dropKey_append, dropKey_projBase]
      congr 1
  · rw [if_neg he] at hr'
    rcases List.mem_map.1 hr' with ⟨m, hm, heq⟩
    have hmr : m ∈ pharm_param.map projPV := List.mem_of_mem_filter hm
    rcases List.mem_map.1 hmr with ⟨r, _, hrm⟩
    refine ⟨(List.lookup "Parameter" r).getD Cell.nan,
      (List.lookup "Value" r).getD Cell.nan, ?_⟩
    rw [← heq, dropKey_append, dropKey_projBase]
    rw [← hrm]
    rfl

/-- C10: whenever the measurement-focused table is produced, every row has
exactly the columns `SMILES`, `cas.index.name`, `cas.rn`, `Parameter`,
`Value` (the `cas_norm` helper is gone), and the three ligand-identity cells
are the record's values, with a column the record table lacks represented as
`None` rather than failing. -/
theorem claim_C10 (sdf pharm : Table) (sel : Option String) (t : Table)
    (ht : buildParamTable sdf pharm sel = some t) :
    (∀ row ∈ t,
        row.map Prod.fst = ["SMILES", "cas.index.name", "cas.rn", "Parameter", "Value"]) ∧
    (∀ row ∈ t, ∃ l ∈ sdf, ∀ c ∈ (["SMILES", "cas.index.name", "cas.rn"] : List String),
        List.lookup c row = some ((List.lookup c l).getD Cell.pynone)) := by
  cases sel with
  | none => exact absurd ht (by simp [buildParamTable])
  | some s =>
    simp only [buildParamTable] at ht
    by_cases hg : "Parameter" ∈ headCols pharm ∧ "Value" ∈ headCols pharm
    · rw [if_pos hg] at ht
      by_cases hemp : (paramFilter pharm s).isEmpty
      · rw [if_pos hemp] at ht
        cases ht
      · rw [if_neg hemp] at ht
        have hne : paramFilter pharm s ≠ [] := by
          intro hnil
          exact hemp (by simp [hnil])
        have ht' : t = ((mergeLeftCas "_y" (sdf.map projBase)
            ((paramFilter pharm s).map projPV)).map dropKeyCol).filter keepParamValue := by
          exact (Option.some.injEq _ _ ▸ ht).symm
        have hshape : ∀ row ∈ t, ∃ l ∈ sdf, ∃ x1 x2 : Cell, row =
            [("SMILES", (List.lookup "SMILES" l).getD Cell.pynone),
             ("cas.index.name", (List.lookup "cas.index.name" l).getD Cell.pynone),
             ("cas.rn", (List.lookup "cas.rn" l).getD Cell.pynone),
             ("Parameter", x1), ("Value", x2)] := by
          intro row hrow
          rw [ht'] at hrow
          have hrow' := List.mem_of_mem_filter hrow
          rcases List.mem_map.1 hrow' with ⟨r', hr', heq⟩
          unfold mergeLeftCas at hr'
          rcases List.mem_flatMap.1 hr' with ⟨lp, hlp, hjoin⟩
          rcases List.mem_map.1 hlp with ⟨l, hl, hpl⟩
          rw [← hpl] at hjoin
          rcases paramRow_shape hl hne hjoin with ⟨x1, x2, hdrop⟩
          exact ⟨l, hl, x1, x2, heq ▸ hdrop⟩
        constructor
        · intro row hrow
          rcases hshape row hrow with ⟨l, _, x1, x2, hrw⟩
          rw [hrw]
          rfl
        · intro row hrow
          rcases hshape row hrow with ⟨l, hl, x1, x2, hrw⟩
          refine ⟨l, hl, ?_⟩
          intro c hc
          rw [hrw]
          simp only [List.mem_cons, List.not_mem_nil, or_false] at hc
          rcases hc with rfl | rfl | rfl
          · rfl
          · simp [List.lookup]
          · simp [List.lookup]
    · rw [if_neg hg] at ht
      cases ht

/-- C10 witness: a record table lacking the `cas.index.name` column still
yields the full five-column measurement table, with `None` in that column. -/
theorem claim_C10_witness :
    (∀ row ∈ (buildParamTable (sdfOf srcA) (pharmDfOf gridOk) (some "IC50")).getD [],
        row.map Prod.fst = ["SMILES", "cas.index.name", "cas.rn", "Parameter", "Value"]) ∧
    (∀ row ∈ (buildParamTable (sdfOf srcA) (pharmDfOf gridOk) (some "IC50")).getD [],
        ∃ l ∈ sdfOf srcA, ∀ c ∈ (["SMILES", "cas.index.name", "cas.rn"] : List String),
          List.lookup c row = some ((List.lookup c l).getD Cell.pynone)) :=
  claim_C10 (sdfOf srcA) (pharmDfOf gridOk) (some "IC50") _ (by decide)

/-- Per-record contribution to the measurement table: one surviving row for
each filtered pharmacology row that shares the record's JoinKey and carries a
non-null `Value`. -/
theorem joinRow_param_count (pharm_param : Table) (l : Row)
    (hne : pharm_param ≠ [])
    (hpna : ∀ r ∈ pharm_param, ((List.lookup "Parameter" r).getD Cell.nan).isna = false) :
    (((joinRow base_cols "_y" (pharm_param.map projPV) (projBase l)).map dropKeyCol).filter
        keepParamValue).length
      = (pharm_param.filter (fun r =>
          ((List.lookup "cas_norm" r).getD Cell.nan
            == (List.lookup "cas_norm" l).getD Cell.pynone)
          && !((List.lookup "Value" r).getD Cell.nan).isna)).length := by
  simp only [joinRow, projBase_lookup_casnorm, Option.getD_some]
  rw [hits_eq]
  by_cases hml : ((pharm_param.filter (fun r =>
      (List.lookup "cas_norm" r).getD Cell.nan
        == (List.lookup "cas_norm" l).getD Cell.pynone)).map projPV).isEmpty
  · rw [if_pos hml]
    have hmlnil : pharm_param.filter (fun r =>
        (List.lookup "cas_norm" r).getD Cell.nan
          == (List.lookup "cas_norm" l).getD Cell.pynone) = [] :=
      List.map_eq_nil_iff.1 (List.isEmpty_iff.1 hml)
    have hrhs : pharm_param.filter (fun r =>
        ((List.lookup "cas_norm" r).getD Cell.nan
          == (List.lookup "cas_norm" l).getD Cell.pynone)
        && !((List.lookup "Value" r).getD Cell.nan).isna) = [] := by
      refine List.filter_eq_nil_iff.2 ?_
      intro r hr hcond
      rw [Bool.and_eq_true] at hcond
      have hkey := hcond.1
      have hrin : r ∈ pharm_param.filter (fun r =>
          (List.lookup "cas_norm" r).getD Cell.nan
            == (List.lookup "cas_norm" l).getD Cell.pynone) :=
        List.mem_filter.2 ⟨hr, hkey⟩
      rw [hmlnil] at hrin
      cases hrin
    rw [hrhs]
    cases pharm_param with
    | nil => exact absurd rfl hne
    | cons r0 ps => rfl
  · rw [if_neg hml]
    have step1 : (((pharm_param.filter (fun r =>
          (List.lookup "cas_norm" r).getD Cell.nan
            == (List.lookup "cas_norm" l).getD Cell.pynone)).map projPV).map
        (fun m => projBase l ++
          (m.filter (fun p => p.1 ≠ "cas_norm")).map
            (fun p => (suffixName base_cols "_y" p.1, p.2)))).map dropKeyCol
        = (pharm_param.filter (fun r =>
            (List.lookup "cas_norm" r).getD Cell.nan
              == (List.lookup "cas_norm" l).getD Cell.pynone)).map
          (fun r => dropKeyCol (projBase l ++
            ((projPV r).filter (fun p => p.1 ≠ "cas_norm")).map
              (fun p => (suffixName base_cols "_y" p.1, p.2)))) := by
      rw [List.map_map, List.map_map]
      rfl
    rw [step1, List.filter_map, List.length_map]
    have step4 : (pharm_param.filter (fun r =>
          (List.lookup "cas_norm" r).getD Cell.nan
            == (List.lookup "cas_norm" l).getD Cell.pynone)).filter
        (keepParamValue ∘ (fun r => dropKeyCol (projBase l ++
          ((projPV r).filter (fun p => p.1 ≠ "cas_norm")).map
            (fun p => (suffixName base_cols "_y" p.1, p.2)))))
        = (pharm_param.filter (fun r =>
            (List.lookup "cas_norm" r).getD Cell.nan
              == (List.lookup "cas_norm" l).getD Cell.pynone)).filter
          (fun r => !((List.lookup "Value" r).getD Cell.nan).isna) := by
      apply List.filter_congr
      intro r hr
      have hr' : r ∈ pharm_param := List.mem_of_mem_filter hr
      have h0 : (keepParamValue ∘ (fun r => dropKeyCol (projBase l ++
          ((projPV r).filter (fun p => p.1 ≠ "cas_norm")).map
            (fun p => (suffixName base_cols "_y" p.1, p.2))))) r
          = (!((List.lookup "Parameter" r).getD Cell.nan).isna
              && !((List.lookup "Value" r).getD Cell.nan).isna) := rfl
      rw [h0, hpna r hr']
      simp
    rw [step4, List.filter_filter]
    congr 1
    apply List.filter_congr
    intro r _
    rw [Bool.and_comm]

/-- C1 counterexample: one record with CAS 50-00-0 and one surviving filtered
pharmacology row with CAS 64-17-5: the measurement table is produced but
empty, although one surviving pharmacology row exists — the claimed one row
per surviving pharmacology row fails because cardinality comes from the
record (left) side. -/
theorem claim_C1_counterexample :
    buildParamTable (sdfOf srcA) (pharmDfOf gridB) (some "IC50") = some [] ∧
    (paramFilter (pharmDfOf gridB) "IC50").length = 1 :=
  ⟨by decide, by decide⟩

/-- C1 amended: when the measurement-focused table is produced and the target
parameter does not stringify like a missing value, the table has one row per
pair of a record row and a surviving pharmacology row that share a JoinKey
and whose `Value` is non-null; surviving pharmacology rows that match no
record are absent, and every surviving output row has non-null `Parameter`
and `Value`. -/
theorem claim_C1_amended (sdf pharm : Table) (sel : String) (t : Table)
    (ht : buildParamTable sdf pharm (some sel) = some t)
    (hn : pyLower sel ≠ "nan") (hm : pyLower sel ≠ "none") :
    t.length = (sdf.map (fun l =>
      ((paramFilter pharm sel).filter (fun r =>
        ((List.lookup "cas_norm" r).getD Cell.nan
          == (List.lookup "cas_norm" l).getD Cell.pynone)
        && !((List.lookup "Value" r).getD Cell.nan).isna)).length)).sum ∧
    (∀ row ∈ t, ((List.lookup "Parameter" row).getD Cell.nan).isna = false ∧
        ((List.lookup "Value" row).getD Cell.nan).isna = false) := by
  simp only [buildParamTable] at ht
  by_cases hg : "Parameter" ∈ headCols pharm ∧ "Value" ∈ headCols pharm
  · rw [if_pos hg] at ht
    by_cases hemp : (paramFilter pharm sel).isEmpty
    · rw [if_pos hemp] at ht
      cases ht
    · rw [if_neg hemp] at ht
      have hne : paramFilter pharm sel ≠ [] := fun hnil => hemp (by simp [hnil])
      have hpna := @paramFilter_param_not_na pharm sel hn hm
      have ht' : t = ((mergeLeftCas "_y" (sdf.map projBase)
          ((paramFilter pharm sel).map projPV)).map dropKeyCol).filter keepParamValue :=
        (Option.some.injEq _ _ ▸ ht).symm
      constructor
      · rw [ht']
        cases sdf with
        | nil => rfl
        | cons l0 rest =>
          unfold mergeLeftCas
          rw [headCols_projBase]
          rw [List.map_flatMap, List.filter_flatMap, List.flatMap_map, List.length_flatMap]
          refine congrArg List.sum (List.map_congr_left ?_)
          intro l _
          exact joinRow_param_count (paramFilter pharm sel) l hne hpna
      · intro row hrow
        rw [ht'] at hrow
        have hpred := (List.mem_filter.1 hrow).2
        rw [keepParamValue, Bool.and_eq_true] at hpred
        exact ⟨by simpa using hpred.1, by simpa using hpred.2⟩
  · rw [if_neg hg] at ht
    cases ht

/-- C1 witness: the amended count evaluated on the two-record upload and the
IC50 sheet. -/
theorem claim_C1_witness :
    ((buildParamTable (sdfOf src0) (pharmDfOf gridOk) (some "IC50")).getD []).length
      = ((sdfOf src0).map (fun l =>
        ((paramFilter (pharmDfOf gridOk) "IC50").filter (fun r =>
          ((List.lookup "cas_norm" r).getD Cell.nan
            == (List.lookup "cas_norm" l).getD Cell.pynone)
          && !((List.lookup "Value" r).getD Cell.nan).isna)).length)).sum ∧
    (∀ row ∈ (buildParamTable (sdfOf src0) (pharmDfOf gridOk) (some "IC50")).getD [],
        ((List.lookup "Parameter" row).getD Cell.nan).isna = false ∧
        ((List.lookup "Value" row).getD Cell.nan).isna = false) :=
  claim_C1_amended (sdfOf src0) (pharmDfOf gridOk) "IC50" _ (by decide) (by decide) (by decide)
